import Mathlib

/-!
Shallow embedding of `currencyconsts.py`: a currency-rate lookup and
conversion module with a global configuration, a time-based rate cache,
an HTTP rate source with fallback endpoints, a response normalizer, and a
`Currency` handle class with overloaded arithmetic operators.

Python floats are modelled as rationals (`ℚ`), timestamps as rationals
measured in minutes, JSON payloads as a small inductive `Json` type, the
Python dict as an association list with last-binding-wins lookup, the
global `_config` / `_cache` dicts as a `St` record threaded explicitly,
and the network as an oracle `Net` mapping a URL to either an error
string or a payload.
-/

namespace CurrencyConsts

/-- A JSON payload: a number or an object (association list of fields).
The shapes relevant to the rate APIs are numbers and nested objects. -/
inductive Json where
  | num (q : ℚ)
  | obj (fields : List (String × Json))
deriving Repr

mutual

/-- Decidable equality on payloads (Python `==` on parsed JSON). -/
def Json.decEq : (a b : Json) → Decidable (a = b)
  | .num a, .num b =>
    if h : a = b then isTrue (by rw [h]) else isFalse (by simp [h])
  | .num _, .obj _ => isFalse (by simp)
  | .obj _, .num _ => isFalse (by simp)
  | .obj xs, .obj ys =>
    match Json.decEqFields xs ys with
    | isTrue h => isTrue (by rw [h])
    | isFalse h => isFalse (by simp [h])

/-- Decidable equality on field lists of payloads. -/
def Json.decEqFields : (xs ys : List (String × Json)) → Decidable (xs = ys)
  | [], [] => isTrue rfl
  | [], _ :: _ => isFalse (by simp)
  | _ :: _, [] => isFalse (by simp)
  | (k1, v1) :: xs, (k2, v2) :: ys =>
    if h1 : k1 = k2 then
      match Json.decEq v1 v2, Json.decEqFields xs ys with
      | isTrue h2, isTrue h3 => isTrue (by rw [h1, h2, h3])
      | isFalse h2, _ => isFalse (by simp [h2])
      | _, isFalse h3 => isFalse (by simp [h3])
    else isFalse (by simp [h1])

end

instance : DecidableEq Json := Json.decEq

deriving instance DecidableEq for Except

/-- A rate table as built by the normalizer: dict from (upper-cased)
currency code to the payload value stored under it. -/
abbrev RateTable := List (String × Json)

/-- Python dict lookup on an association list built by successive
insertion: the last binding for a key wins. -/
def dictGet (fields : List (String × Json)) (k : String) : Option Json :=
  fields.foldl (fun acc p => if p.1 == k then some p.2 else acc) none

/-- Python `str.upper()`: upper-case every character.  (Defined by a
direct map over the character list so that it reduces in the kernel.) -/
def strUpper (s : String) : String := ⟨s.data.map Char.toUpper⟩

/-- Python `str.lower()`: lower-case every character. -/
def strLower (s : String) : String := ⟨s.data.map Char.toLower⟩

/-- `{k.upper(): v for k, v in d.items()}`. -/
def upperFields (l : List (String × Json)) : List (String × Json) :=
  l.map (fun p => (strUpper p.1, p.2))

/-- Whether a JSON value is numeric (`isinstance(v, (int, float))`). -/
def Json.isNum : Json → Bool
  | .num _ => true
  | .obj _ => false

/-- The Python exceptions the module can raise. -/
inductive Err where
  | connectionError (msg : String) (errors : List String)
  | valueError (msg : String)
  | attributeError (msg : String)
  | typeError (msg : String)
deriving Repr, DecidableEq

/-- The message used when an exception is interpolated into an f-string. -/
def Err.message : Err → String
  | .connectionError m _ => m
  | .valueError m => m
  | .attributeError m => m
  | .typeError m => m

/-- The global `_config` dict. -/
structure Config where
  base_currency : String
  margin_percent : ℚ
  cache_ttl_minutes : ℚ
  offline_mode : Bool
  api_endpoints : List String
deriving Repr, DecidableEq

/-- The global `_cache` dict.  `last_fetch` and `base` start as `None`. -/
structure Cache where
  rates : RateTable
  last_fetch : Option ℚ
  base : Option String
  using_fallback : Bool
deriving Repr, DecidableEq

/-- The module's global mutable state: `_config` and `_cache`. -/
structure St where
  cfg : Config
  cache : Cache
deriving Repr, DecidableEq

/-- The initial `_config` literal at module load. -/
def initConfig : Config where
  base_currency := "usd"
  margin_percent := 0
  cache_ttl_minutes := 60
  offline_mode := false
  api_endpoints := ["https://open.er-api.com/v6/latest/\x7bBASE\x7d"]

/-- The initial `_cache` literal at module load. -/
def initCache : Cache where
  rates := []
  last_fetch := none
  base := none
  using_fallback := false

/-- The initial module state. -/
def initSt : St := ⟨initConfig, initCache⟩

/-- The network oracle: maps a URL to either a transport/HTTP/JSON error
message (anything `requests.get` / `raise_for_status` / `.json()` can
raise) or the decoded JSON payload. -/
abbrev Net := String → Except String Json

/-- `_parse_api_response(data, base, url)`.  `data` is a dict (per the
function's annotation; every caller passes a decoded JSON object).
Format 1: a `rates` field (if it holds a non-dict, `.items()` raises
`AttributeError`).  Format 2: a field named by the lower-cased base.
Format 3: all values numeric.  Otherwise the empty dict. -/
def _parse_api_response (data : List (String × Json)) (base : String)
    (_url : String) : Except Err RateTable :=
  match dictGet data "rates" with
  | some (.obj r) => .ok (upperFields r)
  | some _ => .error (.attributeError "object has no attribute items")
  | none =>
    match dictGet data (strLower base) with
    | some (.obj r) => .ok (upperFields r)
    | some _ => .error (.attributeError "object has no attribute items")
    | none =>
      if data.all (fun p => p.2.isNum) then .ok (upperFields data)
      else .ok []

/-- `endpoint_template.format(base=base_lower, BASE=base_upper)`. -/
def formatEndpoint (template base : String) : String :=
  (template.replace "\x7bbase\x7d" (strLower base)).replace "\x7bBASE\x7d" (strUpper base)

/-- One endpoint attempt inside `_fetch_rates`'s `try` block: issue the
request, decode, and normalize.  A non-dict payload makes the membership
test `'rates' in data` raise `TypeError` for a number. -/
def attemptEndpoint (net : Net) (base : String) (template : String) :
    Except String RateTable :=
  let url := formatEndpoint template base
  match net url with
  | .error e => .error (template ++ ": " ++ e)
  | .ok (.num _) => .error (template ++ ": argument of type is not iterable")
  | .ok (.obj fields) =>
    match _parse_api_response fields (strLower base) url with
    | .ok rates => .ok rates
    | .error e => .error (template ++ ": " ++ e.message)

/-- The endpoint loop of `_fetch_rates`: try each template in order,
return the first non-empty table; an exception appends to `errors` and
continues; an empty table just continues. -/
def fetchGo (net : Net) (base : String) :
    List String → List String → Except Err RateTable
  | [], errors =>
    .error (.connectionError "Could not fetch live rates from any API." errors)
  | t :: rest, errors =>
    match attemptEndpoint net base t with
    | .error e => fetchGo net base rest (errors ++ [e])
    | .ok rates =>
      if rates.isEmpty then fetchGo net base rest errors else .ok rates

/-- `_fetch_rates(base)`. -/
def _fetch_rates (net : Net) (endpoints : List String) (base : String) :
    Except Err RateTable :=
  fetchGo net base endpoints []

/-- The result of a cache access: the returned table or the propagated
exception, the state afterwards, and (instrumentation) the list of bases
for which `_fetch_rates` was invoked during the access. -/
structure GetRes where
  result : Except Err RateTable
  st : St
  fetched : List String
deriving Repr

/-- The cache-validity test of `_get_rates`: `_cache['rates']` truthy,
`_cache['base'] == base`, `_cache['last_fetch']` truthy, and age below
the TTL. -/
def cacheValid (cfg : Config) (c : Cache) (now : ℚ) : Bool :=
  !c.rates.isEmpty && c.base == some cfg.base_currency &&
    match c.last_fetch with
    | some lf => decide (now - lf < cfg.cache_ttl_minutes)
    | none => false

/-- `_get_rates()`: serve the cache when valid, else fetch for the
current base and on success replace the entry wholesale; on failure the
exception propagates before any cache write. -/
def _get_rates (net : Net) (now : ℚ) (st : St) : GetRes :=
  let base := st.cfg.base_currency
  if cacheValid st.cfg st.cache now then
    { result := .ok st.cache.rates, st := st, fetched := [] }
  else
    match _fetch_rates net st.cfg.api_endpoints base with
    | .ok rates =>
      { result := .ok rates
        st := { st with cache :=
          { st.cache with rates := rates, last_fetch := some now, base := some base } }
        fetched := [base] }
    | .error e => { result := .error e, st := st, fetched := [base] }

/-- `refresh_rates()`: clear the entry, then repopulate via
`_get_rates` (whose return value is discarded by the Python caller). -/
def refresh_rates (net : Net) (now : ℚ) (st : St) : GetRes :=
  let cleared : St :=
    { st with cache := { st.cache with rates := [], last_fetch := none } }
  _get_rates net now cleared

/-- `set_base(currency)`: store the upper-cased code and invalidate the
cached table and timestamp (the recorded `base` tag is left as is). -/
def set_base (currency : String) (st : St) : St :=
  { st with
    cfg := { st.cfg with base_currency := strUpper currency }
    cache := { st.cache with rates := [], last_fetch := none } }

/-- `set_margin(percent)`. -/
def set_margin (percent : ℚ) (st : St) : St :=
  { st with cfg := { st.cfg with margin_percent := percent } }

/-- `set_cache_ttl(minutes)`. -/
def set_cache_ttl (minutes : ℚ) (st : St) : St :=
  { st with cfg := { st.cfg with cache_ttl_minutes := minutes } }

/-- The outcome of a method on a `Currency` handle: the value or the
propagated exception, the state afterwards, and the bases fetched. -/
structure Res (α : Type) where
  result : Except Err α
  st : St
  fetched : List String
deriving Repr

/-- Map over a successful numeric result, as Python arithmetic applied
to a returned float does (an exception just propagates). -/
def Res.mapVal (g : Res ℚ) (f : ℚ → ℚ) : Res ℚ :=
  { g with result := g.result.map f }

/-- Python float floor division `a // b` (for `b ≠ 0`). -/
def pyFloorDiv (a b : ℚ) : ℚ := (⌊a / b⌋ : ℚ)

/-- Python float modulo `a % b = a - b * (a // b)` (for `b ≠ 0`). -/
def pyMod (a b : ℚ) : ℚ := a - b * (⌊a / b⌋ : ℚ)

/-- A `Currency` handle: an immutable wrapper of one code. -/
structure Currency where
  code : String
deriving Repr, DecidableEq

/-- `Currency.__init__` upper-cases the code. -/
def Currency.make (code : String) : Currency := ⟨strUpper code⟩

/-- The `rate` property: look the handle's code up in the current table;
absent code raises `ValueError(f"Currency '{code}' not found")`. -/
def Currency.rate (c : Currency) (net : Net) (now : ℚ) (st : St) : Res Json :=
  let g := _get_rates net now st
  match g.result with
  | .ok rates =>
    match dictGet rates c.code with
    | some r => { result := .ok r, st := g.st, fetched := g.fetched }
    | none =>
      { result := .error (.valueError ("Currency " ++ c.code ++ " not found"))
        st := g.st, fetched := g.fetched }
  | .error e => { result := .error e, st := g.st, fetched := g.fetched }

/-- The handle's rate as a float: multiplying a non-numeric table entry
raises `TypeError` in Python, so only `Json.num` values pass. -/
def Currency.rateNum (c : Currency) (net : Net) (now : ℚ) (st : St) : Res ℚ :=
  let g := c.rate net now st
  match g.result with
  | .ok (.num r) => { result := .ok r, st := g.st, fetched := g.fetched }
  | .ok (.obj _) =>
    { result := .error (.typeError "unsupported operand type"), st := g.st
      fetched := g.fetched }
  | .error e => { result := .error e, st := g.st, fetched := g.fetched }

/-- The `rate_with_margin` property:
`rate * (1 - margin_percent / 100)`, the margin read after the lookup. -/
def Currency.rate_with_margin (c : Currency) (net : Net) (now : ℚ) (st : St) :
    Res ℚ :=
  let g := c.rateNum net now st
  g.mapVal (fun r => r * (1 - g.st.cfg.margin_percent / 100))

/-- `Currency._convert(amount)`: pick `rate_with_margin` when the
configured margin is positive, else the plain `rate`, then multiply. -/
def Currency._convert (c : Currency) (amount : ℚ) (net : Net) (now : ℚ)
    (st : St) : Res ℚ :=
  if st.cfg.margin_percent > 0 then
    (c.rate_with_margin net now st).mapVal (fun rate => amount * rate)
  else
    (c.rateNum net now st).mapVal (fun rate => amount * rate)

/-- `__rmul__`: `amount * eur`. -/
def Currency.rmulOp (c : Currency) (amount : ℚ) (net : Net) (now : ℚ)
    (st : St) : Res ℚ :=
  c._convert amount net now st

/-- `__mul__`: `eur * amount`. -/
def Currency.mulOp (c : Currency) (amount : ℚ) (net : Net) (now : ℚ)
    (st : St) : Res ℚ :=
  c._convert amount net now st

/-- `__truediv__`: `eur / amount` is `self._convert(1 / amount)`. -/
def Currency.truedivOp (c : Currency) (amount : ℚ) (net : Net) (now : ℚ)
    (st : St) : Res ℚ :=
  c._convert (1 / amount) net now st

/-- `__rtruediv__`: `amount / eur` is `amount / self.rate` — the plain
rate, not `_convert`. -/
def Currency.rtruedivOp (c : Currency) (amount : ℚ) (net : Net) (now : ℚ)
    (st : St) : Res ℚ :=
  (c.rateNum net now st).mapVal (fun r => amount / r)

/-- `__floordiv__`: `eur // amount` is `self._convert(1) // amount`. -/
def Currency.floordivOp (c : Currency) (amount : ℚ) (net : Net) (now : ℚ)
    (st : St) : Res ℚ :=
  (c._convert 1 net now st).mapVal (fun v => pyFloorDiv v amount)

/-- `__rfloordiv__`: `amount // eur` is `amount // self._convert(1)`. -/
def Currency.rfloordivOp (c : Currency) (amount : ℚ) (net : Net) (now : ℚ)
    (st : St) : Res ℚ :=
  (c._convert 1 net now st).mapVal (fun v => pyFloorDiv amount v)

/-- `__add__`: `eur + amount` is `self._convert(1) + amount`. -/
def Currency.addOp (c : Currency) (amount : ℚ) (net : Net) (now : ℚ)
    (st : St) : Res ℚ :=
  (c._convert 1 net now st).mapVal (fun v => v + amount)

/-- `__radd__`: `amount + eur` is `amount + self._convert(1)`. -/
def Currency.raddOp (c : Currency) (amount : ℚ) (net : Net) (now : ℚ)
    (st : St) : Res ℚ :=
  (c._convert 1 net now st).mapVal (fun v => amount + v)

/-- `__sub__`: `eur - amount` is `self._convert(1) - amount`. -/
def Currency.subOp (c : Currency) (amount : ℚ) (net : Net) (now : ℚ)
    (st : St) : Res ℚ :=
  (c._convert 1 net now st).mapVal (fun v => v - amount)

/-- `__rsub__`: `amount - eur` is `amount - self._convert(1)`. -/
def Currency.rsubOp (c : Currency) (amount : ℚ) (net : Net) (now : ℚ)
    (st : St) : Res ℚ :=
  (c._convert 1 net now st).mapVal (fun v => amount - v)

/-- `__mod__`: `eur % amount` is `self._convert(1) % amount`. -/
def Currency.modOp (c : Currency) (amount : ℚ) (net : Net) (now : ℚ)
    (st : St) : Res ℚ :=
  (c._convert 1 net now st).mapVal (fun v => pyMod v amount)

/-- `__rmod__`: `amount % eur` is `amount % self._convert(1)`. -/
def Currency.rmodOp (c : Currency) (amount : ℚ) (net : Net) (now : ℚ)
    (st : St) : Res ℚ :=
  (c._convert 1 net now st).mapVal (fun v => pyMod amount v)

/-- An uppercase 3-letter code, as the specification describes
`base_currency`. -/
def isUpperCode (s : String) : Bool :=
  s.length == 3 && s.toList.all (fun ch => ch.isUpper)

section Lemmas

/-- `_get_rates` never touches `_config`. -/
theorem _get_rates_st_cfg (net : Net) (now : ℚ) (st : St) :
    (_get_rates net now st).st.cfg = st.cfg := by
  simp only [_get_rates]
  split
  · rfl
  · split <;> rfl

/-- A cache hit: a valid entry is served as is, with no fetch and no
state change. -/
theorem _get_rates_hit (net : Net) (now lf : ℚ) (st : St)
    (h1 : st.cache.rates ≠ [])
    (h2 : st.cache.base = some st.cfg.base_currency)
    (h3 : st.cache.last_fetch = some lf)
    (h4 : now - lf < st.cfg.cache_ttl_minutes) :
    _get_rates net now st
      = { result := .ok st.cache.rates, st := st, fetched := [] } := by
  have hne : st.cache.rates.isEmpty = false := by
    cases hr : st.cache.rates with
    | nil => exact absurd hr h1
    | cons a l => rfl
  have hv : cacheValid st.cfg st.cache now = true := by
    simp [cacheValid, hne, h2, h3, h4]
  simp [_get_rates, hv]

/-- A cache miss triggers exactly one fetch, for the configured base. -/
theorem _get_rates_miss_fetched (net : Net) (now : ℚ) (st : St)
    (hv : cacheValid st.cfg st.cache now = false) :
    (_get_rates net now st).fetched = [st.cfg.base_currency] := by
  simp only [_get_rates, hv, Bool.false_eq_true, if_false]
  split <;> rfl

/-- A failed fetch inside `_get_rates` leaves the state untouched. -/
theorem _get_rates_error_frame (net : Net) (now : ℚ) (st : St) (e : Err)
    (h : (_get_rates net now st).result = .error e) :
    (_get_rates net now st).st = st := by
  simp only [_get_rates] at h ⊢
  by_cases hv : cacheValid st.cfg st.cache now = true
  · simp [hv] at h
  · simp only [hv, Bool.false_eq_true, if_false] at h ⊢
    cases hf : _fetch_rates net st.cfg.api_endpoints st.cfg.base_currency with
    | ok rates => rw [hf] at h; simp at h
    | error e2 => rfl

/-- How `_convert` computes on a successful lookup: margin-adjusted rate
when the margin is positive, plain rate otherwise, and no fetch beyond
the one `_get_rates` performed. -/
theorem _convert_result (c : Currency) (net : Net) (now : ℚ) (st : St)
    (tbl : RateTable) (r a : ℚ)
    (h1 : (_get_rates net now st).result = .ok tbl)
    (h2 : dictGet tbl c.code = some (.num r)) :
    (0 < st.cfg.margin_percent →
      (c._convert a net now st).result
        = .ok (a * (r * (1 - st.cfg.margin_percent / 100)))) ∧
    (¬ 0 < st.cfg.margin_percent →
      (c._convert a net now st).result = .ok (a * r)) ∧
    (c._convert a net now st).fetched = (_get_rates net now st).fetched := by
  have hcfg := _get_rates_st_cfg net now st
  refine ⟨?_, ?_, ?_⟩
  · intro hm
    simp only [Currency._convert, Currency.rate_with_margin, Currency.rateNum,
      Currency.rate, Res.mapVal, h1, h2, hcfg, if_pos hm, Except.map]
  · intro hm
    simp only [Currency._convert, Currency.rate_with_margin, Currency.rateNum,
      Currency.rate, Res.mapVal, h1, h2, hcfg, if_neg hm, Except.map]
  · by_cases hm : 0 < st.cfg.margin_percent
    · simp only [Currency._convert, Currency.rate_with_margin, Currency.rateNum,
        Currency.rate, Res.mapVal, h1, h2, hcfg, if_pos hm, Except.map]
    · simp only [Currency._convert, Currency.rate_with_margin, Currency.rateNum,
        Currency.rate, Res.mapVal, h1, h2, hcfg, if_neg hm, Except.map]

end Lemmas

section Fixtures

/-- A network oracle for which every request raises. -/
def netDown : Net := fun _ => .error "ConnectionError: offline"

/-- A network oracle answering every URL with a fixed `rates` payload. -/
def netFixed : Net := fun _ =>
  .ok (.obj [("rates", .obj [("eur", .num (9/10)), ("gbp", .num (4/5))])])

/-- A network oracle answering every URL with an empty object, which
normalizes to an empty table without raising. -/
def netEmptyPayload : Net := fun _ => .ok (.obj [])

/-- A state holding a freshly cached EUR/GBP table for base USD. -/
def stCached : St where
  cfg :=
    { base_currency := "USD", margin_percent := 0, cache_ttl_minutes := 60
      offline_mode := false
      api_endpoints := ["https://open.er-api.com/v6/latest/\x7bBASE\x7d"] }
  cache :=
    { rates := [("EUR", .num (9/10)), ("GBP", .num (4/5))]
      last_fetch := some 0, base := some "USD", using_fallback := false }

/-- At time 1 the cached entry of `stCached` is still valid: any lookup
is a pure cache hit. -/
theorem stCached_hit (net : Net) :
    _get_rates net 1 stCached
      = { result := .ok stCached.cache.rates, st := stCached, fetched := [] } :=
  _get_rates_hit net 1 0 stCached (by decide) rfl rfl (by norm_num [stCached])

end Fixtures

section Claims

/-- Claim C1: for a handle whose code maps to a positive rate `r` in the
current table and any amount `a`, `_convert(a)` (and hence `a * handle`
and `handle * a`) returns `a * r * (1 - m/100)` when the configured
margin `m` is positive, and `a * r` when `m = 0`. -/
theorem claim_C1 (c : Currency) (net : Net) (now : ℚ) (st : St)
    (tbl : RateTable) (r a : ℚ)
    (h1 : (_get_rates net now st).result = .ok tbl)
    (h2 : dictGet tbl c.code = some (.num r))
    (_hr : 0 < r) :
    (c.rmulOp a net now st = c._convert a net now st) ∧
    (c.mulOp a net now st = c._convert a net now st) ∧
    (0 < st.cfg.margin_percent →
      (c._convert a net now st).result
        = .ok (a * r * (1 - st.cfg.margin_percent / 100))) ∧
    (st.cfg.margin_percent = 0 →
      (c._convert a net now st).result = .ok (a * r)) := by
  have hcfg := _get_rates_st_cfg net now st
  refine ⟨rfl, rfl, ?_, ?_⟩
  · intro hm
    simp only [Currency._convert, Currency.rate_with_margin, Currency.rateNum,
      Currency.rate, Res.mapVal, h1, h2, hcfg, if_pos hm, Except.map]
    rw [mul_assoc]
  · intro hm
    simp only [Currency._convert, Currency.rate_with_margin, Currency.rateNum,
      Currency.rate, Res.mapVal, h1, h2, hcfg, hm, lt_irrefl, if_neg,
      Except.map, gt_iff_lt, not_false_eq_true]

/-- Claim C2: the normalizer tries three payload shapes in order with
first match winning — a `rates` field (codes upper-cased), a field named
by the lower-cased base holding a nested mapping, or an all-numeric
object used as the mapping itself — and yields the empty mapping when
none match; with the three concrete examples from the specification. -/
theorem claim_C2 :
    (∀ (data : List (String × Json)) (base url : String)
        (r : List (String × Json)),
      dictGet data "rates" = some (.obj r) →
        _parse_api_response data base url = .ok (upperFields r)) ∧
    (∀ (data : List (String × Json)) (base url : String)
        (r : List (String × Json)),
      dictGet data "rates" = none →
      dictGet data (strLower base) = some (.obj r) →
        _parse_api_response data base url = .ok (upperFields r)) ∧
    (∀ (data : List (String × Json)) (base url : String),
      dictGet data "rates" = none →
      dictGet data (strLower base) = none →
      data.all (fun p => p.2.isNum) = true →
        _parse_api_response data base url = .ok (upperFields data)) ∧
    (∀ (data : List (String × Json)) (base url : String),
      dictGet data "rates" = none →
      dictGet data (strLower base) = none →
      data.all (fun p => p.2.isNum) = false →
        _parse_api_response data base url = .ok []) ∧
    (_parse_api_response [("rates", .obj [("eur", .num (9/10))])] "usd" "u"
      = .ok [("EUR", .num (9/10))]) ∧
    (_parse_api_response [("usd", .obj [("eur", .num (9/10))])] "usd" "u"
      = .ok [("EUR", .num (9/10))]) ∧
    (_parse_api_response [("eur", .num (9/10)), ("gbp", .num (4/5))] "usd" "u"
      = .ok [("EUR", .num (9/10)), ("GBP", .num (4/5))]) := by
  refine ⟨?_, ?_, ?_, ?_, by rfl, by rfl, by rfl⟩
  · intro data base url r h
    simp only [_parse_api_response, h]
  · intro data base url r h1 h2
    simp only [_parse_api_response, h1, h2]
  · intro data base url h1 h2 h3
    simp only [_parse_api_response, h1, h2, h3, if_pos]
  · intro data base url h1 h2 h3
    simp only [_parse_api_response, h1, h2, h3, Bool.false_eq_true,
      not_false_eq_true, if_neg]

/-- Witness for C2: the first shape on a concrete payload. -/
theorem claim_C2_witness :
    _parse_api_response [("rates", .obj [("gbp", .num 2)])] "eur" "u"
      = .ok [("GBP", .num 2)] := by
  have h := claim_C2.1 [("rates", .obj [("gbp", .num 2)])] "eur" "u"
    [("gbp", .num 2)] rfl
  exact h.trans rfl

/-- Claim C3: a lookup on a valid cache entry (non-empty, base matching
the configured base, age strictly below the TTL) returns the cached
table without fetching and leaves the whole state unchanged; a lookup on
an invalid entry triggers exactly one fetch, for the current base. -/
theorem claim_C3 (net : Net) (now lf : ℚ) (st : St) :
    (st.cache.rates ≠ [] →
     st.cache.base = some st.cfg.base_currency →
     st.cache.last_fetch = some lf →
     now - lf < st.cfg.cache_ttl_minutes →
      _get_rates net now st
        = { result := .ok st.cache.rates, st := st, fetched := [] }) ∧
    (cacheValid st.cfg st.cache now = false →
      (_get_rates net now st).fetched = [st.cfg.base_currency]) :=
  ⟨fun h1 h2 h3 h4 => _get_rates_hit net now lf st h1 h2 h3 h4,
   fun hv => _get_rates_miss_fetched net now st hv⟩

/-- Witness for C3: a concrete within-TTL hit is served from the cache
with no fetch even though the network is down. -/
theorem claim_C3_witness :
    _get_rates netDown 1 stCached
      = { result := .ok stCached.cache.rates, st := stCached, fetched := [] } :=
  (claim_C3 netDown 1 0 stCached).1 (by decide) rfl rfl (by norm_num [stCached])

/-- Claim C5 counterexample: with a non-empty stale entry in place and
the network down, `refresh_rates` propagates the error but leaves the
entry cleared, not as it was before the call. -/
theorem claim_C5_counterexample :
    (refresh_rates netDown 0 stCached).result
      = .error (.connectionError "Could not fetch live rates from any API."
          ["https://open.er-api.com/v6/latest/\x7bBASE\x7d: ConnectionError: offline"]) ∧
    stCached.cache.rates = [("EUR", .num (9/10)), ("GBP", .num (4/5))] ∧
    (refresh_rates netDown 0 stCached).st.cache.rates = [] ∧
    (refresh_rates netDown 0 stCached).st.cache ≠ stCached.cache :=
  ⟨rfl, rfl, rfl, by decide⟩

/-- Claim C5 as amended: a failed fetch propagates the error; a lookup
through `_get_rates` leaves the state exactly as it was, but a lookup
initiated by `refresh_rates` leaves the entry it had already cleared
(empty table, no timestamp, base tag and fallback flag preserved),
not the prior stale entry. -/
theorem claim_C5_amended (net : Net) (now : ℚ) (st : St) (e : Err) :
    ((_get_rates net now st).result = .error e →
      (_get_rates net now st).st = st) ∧
    ((refresh_rates net now st).result = .error e →
      (refresh_rates net now st).st
        = { st with cache := { st.cache with rates := [], last_fetch := none } }) :=
  ⟨fun h => _get_rates_error_frame net now st e h,
   fun h => _get_rates_error_frame net now _ e h⟩

/-- Witness for C5 (amended): the concrete failed refresh above ends in
exactly the cleared state. -/
theorem claim_C5_amended_witness :
    (refresh_rates netDown 0 stCached).st
      = { stCached with cache :=
          { stCached.cache with rates := [], last_fetch := none } } :=
  (claim_C5_amended netDown 0 stCached
      (.connectionError "Could not fetch live rates from any API."
        ["https://open.er-api.com/v6/latest/\x7bBASE\x7d: ConnectionError: offline"])).2
    rfl

/-- Claim C6: reading `rate` when the handle's code is absent from the
current table fails with the currency-not-found error and never returns
any value; when the code is present it returns that table entry. -/
theorem claim_C6 (c : Currency) (net : Net) (now : ℚ) (st : St)
    (tbl : RateTable)
    (h1 : (_get_rates net now st).result = .ok tbl) :
    (dictGet tbl c.code = none →
      (c.rate net now st).result
        = .error (.valueError ("Currency " ++ c.code ++ " not found")) ∧
      ∀ v, (c.rate net now st).result ≠ .ok v) ∧
    (∀ r, dictGet tbl c.code = some r → (c.rate net now st).result = .ok r) := by
  constructor
  · intro h2
    constructor
    · simp [Currency.rate, h1, h2]
    · intro v
      simp [Currency.rate, h1, h2]
  · intro r h2
    simp [Currency.rate, h1, h2]

/-- Witness for C6: looking up the unknown code ZZZ on the concrete
cached table raises the not-found error. -/
theorem claim_C6_witness :
    ((Currency.make "zzz").rate netDown 1 stCached).result
      = .error (.valueError "Currency ZZZ not found") := by
  exact ((claim_C6 (Currency.make "zzz") netDown 1 stCached stCached.cache.rates
      (by rw [stCached_hit])).1 rfl).1

/-- The diagnostic entries one endpoint attempt contributes to the
`errors` list of `_fetch_rates`: one entry when the attempt raised,
none when it returned a (possibly empty) table. -/
def endpointDiag (net : Net) (base : String) (t : String) : List String :=
  match attemptEndpoint net base t with
  | .error e => [e]
  | .ok _ => []

/-- An endpoint attempt that fails to yield a non-empty table: it either
raised or normalized to an empty mapping. -/
def attemptYieldsNone (net : Net) (base : String) (t : String) : Bool :=
  match attemptEndpoint net base t with
  | .error _ => true
  | .ok rates => rates.isEmpty

/-- When every endpoint fails to yield a non-empty table, the loop ends
in the connection error, accumulating exactly the raising endpoints'
diagnostics after the entries already collected. -/
theorem fetchGo_all_fail (net : Net) (base : String) (es : List String) :
    ∀ errs : List String, (∀ t ∈ es, attemptYieldsNone net base t = true) →
      fetchGo net base es errs
        = .error (.connectionError "Could not fetch live rates from any API."
            (errs ++ es.flatMap (endpointDiag net base))) := by
  induction es with
  | nil =>
    intro errs _
    simp [fetchGo]
  | cons t rest ih =>
    intro errs h
    have ht := h t (List.mem_cons_self t rest)
    have hrest := fun errs2 => ih errs2 (fun u hu => h u (List.mem_cons_of_mem t hu))
    cases ha : attemptEndpoint net base t with
    | error e =>
      have hstep : fetchGo net base (t :: rest) errs
          = fetchGo net base rest (errs ++ [e]) := by
        simp only [fetchGo, ha]
      rw [hstep, hrest (errs ++ [e])]
      simp [endpointDiag, ha, List.flatMap_cons, List.append_assoc]
    | ok rates =>
      have hre : rates.isEmpty = true := by
        simpa [attemptYieldsNone, ha] using ht
      have hstep : fetchGo net base (t :: rest) errs
          = fetchGo net base rest errs := by
        simp only [fetchGo, ha, hre, if_true]
      rw [hstep, hrest errs]
      simp [endpointDiag, ha, List.flatMap_cons]

/-- Claim C7 counterexample: with a single endpoint whose payload
normalizes to an empty table without raising, the fetch fails with an
empty diagnostics list — not one entry per attempted endpoint. -/
theorem claim_C7_counterexample :
    _fetch_rates netEmptyPayload ["https://api.example.com/latest/\x7bBASE\x7d"] "usd"
      = .error (.connectionError "Could not fetch live rates from any API." []) ∧
    ["https://api.example.com/latest/\x7bBASE\x7d"].length = 1 :=
  ⟨rfl, rfl⟩

/-- Claim C7 as amended: when every endpoint fails to yield a non-empty
table, `_fetch_rates` raises the connection error carrying one
diagnostic entry per endpoint whose attempt raised, in endpoint order,
and no entry for an endpoint whose payload normalized to an empty
table. -/
theorem claim_C7_amended (net : Net) (base : String) (es : List String)
    (h : ∀ t ∈ es, attemptYieldsNone net base t = true) :
    _fetch_rates net es base
      = .error (.connectionError "Could not fetch live rates from any API."
          (es.flatMap (endpointDiag net base))) ∧
    (∀ t e, attemptEndpoint net base t = .error e →
      endpointDiag net base t = [e]) ∧
    (∀ t r, attemptEndpoint net base t = .ok r →
      endpointDiag net base t = []) := by
  refine ⟨?_, ?_, ?_⟩
  · have := fetchGo_all_fail net base es [] h
    simpa [_fetch_rates] using this
  · intro t e ha
    simp [endpointDiag, ha]
  · intro t r ha
    simp [endpointDiag, ha]

/-- Witness for C7 (amended): two endpoints that both raise produce two
diagnostic entries, in order. -/
theorem claim_C7_amended_witness :
    _fetch_rates netDown ["e1", "e2"] "usd"
      = .error (.connectionError "Could not fetch live rates from any API."
          ["e1: ConnectionError: offline", "e2: ConnectionError: offline"]) := by
  exact (claim_C7_amended netDown "usd" ["e1", "e2"] (by decide)).1.trans rfl

/-- With any margin configured, the `stCached` entry is still a pure
cache hit at time 1 (the margin plays no role in cache validity). -/
theorem stCached_margin_hit (net : Net) (m : ℚ) :
    _get_rates net 1 (set_margin m stCached)
      = { result := .ok stCached.cache.rates, st := set_margin m stCached
          fetched := [] } :=
  _get_rates_hit net 1 0 (set_margin m stCached)
    (by exact (by decide : stCached.cache.rates ≠ []))
    rfl rfl (by exact (by norm_num : (1 : ℚ) - 0 < 60))

/-- Claim C8 counterexample: with margin 50 and cached rate 0.9 for EUR,
`9 / eur` returns `9 / rate = 10`, while `9 / convert(1) = 20`: the
reversed true division uses the plain rate and ignores the margin, so it
does not reduce to arithmetic against `convert(1)`. -/
theorem claim_C8_counterexample :
    ((Currency.make "eur").rtruedivOp 9 netDown 1 (set_margin 50 stCached)).result
      = .ok 10 ∧
    ((Currency.make "eur")._convert 1 netDown 1
        (set_margin 50 stCached)).result.map (fun v => 9 / v) = .ok 20 ∧
    Except.ok (ε := Err) (10 : ℚ) ≠ .ok 20 := by
  have hd : dictGet stCached.cache.rates (Currency.make "eur").code
      = some (.num (9/10)) := rfl
  refine ⟨?_, ?_, ?_⟩
  · simp only [Currency.rtruedivOp, Currency.rateNum, Currency.rate,
      stCached_margin_hit, Res.mapVal, hd, Except.map]
    norm_num
  · have hm : (set_margin (50:ℚ) stCached).cfg.margin_percent > 0 := by
      norm_num [set_margin, stCached]
    simp only [Currency._convert, if_pos hm, Currency.rate_with_margin,
      Currency.rateNum, Currency.rate, stCached_margin_hit, Res.mapVal, hd,
      Except.map]
    norm_num [set_margin, stCached]
  · simp only [ne_eq, Except.ok.injEq]
    norm_num

/-- Claim C8 as amended: every operator form except reversed true
division reduces to `_convert` exactly as the claim lists; reversed true
division `x / h` is raw division by the plain `rate`, which coincides
with `x / convert(1)` only when the configured margin is not
positive. -/
theorem claim_C8_amended (c : Currency) (x : ℚ) (net : Net) (now : ℚ)
    (st : St) :
    (c.rmulOp x net now st = c._convert x net now st) ∧
    (c.mulOp x net now st = c._convert x net now st) ∧
    (c.truedivOp x net now st = c._convert (1 / x) net now st) ∧
    (c.addOp x net now st = (c._convert 1 net now st).mapVal (fun v => v + x)) ∧
    (c.raddOp x net now st = (c._convert 1 net now st).mapVal (fun v => x + v)) ∧
    (c.subOp x net now st = (c._convert 1 net now st).mapVal (fun v => v - x)) ∧
    (c.rsubOp x net now st = (c._convert 1 net now st).mapVal (fun v => x - v)) ∧
    (c.modOp x net now st = (c._convert 1 net now st).mapVal (fun v => pyMod v x)) ∧
    (c.rmodOp x net now st = (c._convert 1 net now st).mapVal (fun v => pyMod x v)) ∧
    (c.floordivOp x net now st
      = (c._convert 1 net now st).mapVal (fun v => pyFloorDiv v x)) ∧
    (c.rfloordivOp x net now st
      = (c._convert 1 net now st).mapVal (fun v => pyFloorDiv x v)) ∧
    (c.rtruedivOp x net now st = (c.rateNum net now st).mapVal (fun r => x / r)) ∧
    (st.cfg.margin_percent ≤ 0 →
      c.rtruedivOp x net now st
        = (c._convert 1 net now st).mapVal (fun v => x / v)) := by
  refine ⟨rfl, rfl, rfl, rfl, rfl, rfl, rfl, rfl, rfl, rfl, rfl, rfl, ?_⟩
  intro hm
  have hnot : ¬ st.cfg.margin_percent > 0 := not_lt.mpr hm
  simp only [Currency.rtruedivOp, Currency._convert, hnot, if_false, Res.mapVal]
  cases hres : (c.rateNum net now st).result with
  | ok v => simp [Except.map, hres, one_mul]
  | error e => simp [Except.map, hres]

/-- Witness for C8 (amended): with margin 0 the reversed division does
agree with arithmetic against `convert(1)` on the concrete state. -/
theorem claim_C8_amended_witness :
    (Currency.make "eur").rtruedivOp 9 netDown 1 stCached
      = ((Currency.make "eur")._convert 1 netDown 1 stCached).mapVal
          (fun v => 9 / v) :=
  (claim_C8_amended (Currency.make "eur") 9 netDown 1 stCached).2.2.2.2.2.2.2.2.2.2.2.2
    (by norm_num [stCached])

/-- Witness for C1: converting 100 with cached EUR rate 0.9 and margin 0
yields 90. -/
theorem claim_C1_witness :
    ((Currency.make "eur")._convert 100 netDown 1 stCached).result
      = .ok 90 := by
  have h := (claim_C1 (Currency.make "eur") netDown 1 stCached
      stCached.cache.rates (9/10) 100 (by rw [stCached_hit]) rfl
      (by norm_num)).2.2.2 rfl
  exact h.trans (by norm_num)

/-- Claim C9 counterexample: at module load, before any setter call, the
configured base currency is the lowercase string "usd", which is not an
uppercase 3-letter code. -/
theorem claim_C9_counterexample :
    initSt.cfg.base_currency = "usd" ∧ isUpperCode "usd" = false :=
  ⟨rfl, by decide⟩

/-- Claim C9 as amended: `set_base(c)` stores the upper-cased form of
`c` — in particular a lowercase 3-letter code such as "eur" yields an
uppercase 3-letter base — but in the initial state, before any setter is
called, the base is the lowercase "usd". -/
theorem claim_C9_amended :
    (∀ (c : String) (st : St),
      (set_base c st).cfg.base_currency = strUpper c) ∧
    (∀ st : St, isUpperCode ((set_base "eur" st).cfg.base_currency) = true) ∧
    initSt.cfg.base_currency = "usd" :=
  ⟨fun _ _ => rfl, fun _ => rfl, rfl⟩

/-- Claim C10: `set_margin` and `set_cache_ttl` leave the cache entry
and the configured base untouched; afterwards, a conversion on an entry
valid under the (new) TTL for the unchanged base is served from the
cached table with the new margin applied and no fetch. -/
theorem claim_C10 (m tnew : ℚ) (st : St) (c : Currency) (a lf r : ℚ)
    (net : Net) (now : ℚ) :
    ((set_margin m st).cache = st.cache) ∧
    ((set_cache_ttl tnew st).cache = st.cache) ∧
    ((set_margin m st).cfg.base_currency = st.cfg.base_currency) ∧
    ((set_cache_ttl tnew st).cfg.base_currency = st.cfg.base_currency) ∧
    (st.cache.rates ≠ [] →
     st.cache.base = some st.cfg.base_currency →
     st.cache.last_fetch = some lf →
     now - lf < st.cfg.cache_ttl_minutes →
     dictGet st.cache.rates c.code = some (.num r) →
     0 < m →
      (c._convert a net now (set_margin m st)).result
        = .ok (a * (r * (1 - m / 100))) ∧
      (c._convert a net now (set_margin m st)).fetched = []) ∧
    (st.cache.rates ≠ [] →
     st.cache.base = some st.cfg.base_currency →
     st.cache.last_fetch = some lf →
     now - lf < tnew →
      _get_rates net now (set_cache_ttl tnew st)
        = { result := .ok st.cache.rates, st := set_cache_ttl tnew st
            fetched := [] }) := by
  refine ⟨rfl, rfl, rfl, rfl, ?_, ?_⟩
  · intro h1 h2 h3 h4 h5 hm
    have hg := _get_rates_hit net now lf (set_margin m st) h1 h2 h3 h4
    have hc := _convert_result c net now (set_margin m st) st.cache.rates r a
      (by rw [hg]; rfl) h5
    exact ⟨hc.1 hm, hc.2.2.trans (by rw [hg])⟩
  · intro h1 h2 h3 h4
    exact _get_rates_hit net now lf (set_cache_ttl tnew st) h1 h2 h3 h4

/-- Witness for C10: after `set_margin(3.5)` on the concrete cached
state, a conversion is served from the cache with the new margin. -/
theorem claim_C10_witness :
    ((Currency.make "eur")._convert 100 netDown 1
        (set_margin (7/2) stCached)).result
      = .ok (100 * ((9/10) * (1 - (7/2) / 100))) ∧
    ((Currency.make "eur")._convert 100 netDown 1
        (set_margin (7/2) stCached)).fetched = [] :=
  (claim_C10 (7/2) 60 stCached (Currency.make "eur") 100 0 (9/10)
      netDown 1).2.2.2.2.1
    (by decide) rfl rfl (by norm_num [stCached]) rfl (by norm_num)

/-- The public operations, for reasoning about arbitrary call
sequences. -/
inductive Op where
  | getRates (now : ℚ)
  | refresh (now : ℚ)
  | setBase (c : String)
  | setMargin (m : ℚ)
  | setTTL (t : ℚ)

/-- Ghost-instrumented trace state: the module state plus logs of every
table handed to a caller and of every successful fetch (the base it was
fetched for, and the table). -/
structure TrSt where
  st : St
  served : List RateTable
  fetchLog : List (String × RateTable)

/-- Record the outcome of one cache access in the ghost logs. -/
def applyGet (s : TrSt) (g : GetRes) : TrSt where
  st := g.st
  served := s.served ++ (match g.result with | .ok tbl => [tbl] | .error _ => [])
  fetchLog := s.fetchLog ++
    (match g.fetched, g.result with
     | [b], .ok tbl => [(b, tbl)]
     | _, _ => [])

/-- One public operation on the instrumented state. -/
def stepOp (net : Net) (s : TrSt) : Op → TrSt
  | .getRates now => applyGet s (_get_rates net now s.st)
  | .refresh now => applyGet s (refresh_rates net now s.st)
  | .setBase c => { s with st := set_base c s.st }
  | .setMargin m => { s with st := set_margin m s.st }
  | .setTTL t => { s with st := set_cache_ttl t s.st }

/-- Run a sequence of operations left to right. -/
def runOps (net : Net) (s : TrSt) (ops : List Op) : TrSt :=
  ops.foldl (stepOp net) s

/-- Trace invariant: a non-empty cached table was recorded by a fetch
for its tagged base, and every served table came from a logged fetch. -/
def TrInv (s : TrSt) : Prop :=
  (s.st.cache.rates = [] ∨
    ∃ b, s.st.cache.base = some b ∧ (b, s.st.cache.rates) ∈ s.fetchLog) ∧
  (∀ tbl ∈ s.served, ∃ b, (b, tbl) ∈ s.fetchLog)

/-- One cache access preserves the trace invariant, for any state `st0`
whose entry is empty or already logged. -/
theorem applyGet_inv (net : Net) (now : ℚ) (s : TrSt) (st0 : St)
    (hentry : st0.cache.rates = [] ∨
      ∃ b, st0.cache.base = some b ∧ (b, st0.cache.rates) ∈ s.fetchLog)
    (hserved : ∀ tbl ∈ s.served, ∃ b, (b, tbl) ∈ s.fetchLog) :
    TrInv (applyGet s (_get_rates net now st0)) := by
  by_cases hv : cacheValid st0.cfg st0.cache now = true
  · have hg : _get_rates net now st0
        = { result := .ok st0.cache.rates, st := st0, fetched := [] } := by
      simp [_get_rates, hv]
    have hne : st0.cache.rates ≠ [] := by
      intro he
      simp [cacheValid, he] at hv
    rcases hentry with he | ⟨b, hb, hmem⟩
    · exact absurd he hne
    rw [hg]
    refine ⟨Or.inr ⟨b, hb, ?_⟩, ?_⟩
    · simpa [applyGet] using hmem
    · intro tbl htbl
      simp only [applyGet, List.append_nil, List.mem_append,
        List.mem_singleton] at htbl
      rcases htbl with hold | hnew
      · obtain ⟨b2, hb2⟩ := hserved tbl hold
        exact ⟨b2, by simpa [applyGet] using hb2⟩
      · subst hnew
        exact ⟨b, by simpa [applyGet] using hmem⟩
  · simp only [Bool.not_eq_true] at hv
    cases hf : _fetch_rates net st0.cfg.api_endpoints st0.cfg.base_currency with
    | ok rates =>
      have hg : _get_rates net now st0
          = { result := .ok rates,
              st := { st0 with
                      cache := { st0.cache with
                                 rates := rates,
                                 last_fetch := some now,
                                 base := some st0.cfg.base_currency } },
              fetched := [st0.cfg.base_currency] } := by
        simp [_get_rates, hv, hf]
      rw [hg]
      refine ⟨Or.inr ⟨st0.cfg.base_currency, rfl, ?_⟩, ?_⟩
      · simp [applyGet]
      · intro tbl htbl
        simp only [applyGet, List.mem_append, List.mem_singleton] at htbl
        rcases htbl with hold | hnew
        · obtain ⟨b2, hb2⟩ := hserved tbl hold
          exact ⟨b2, by simp [applyGet, List.mem_append, hb2]⟩
        · subst hnew
          exact ⟨st0.cfg.base_currency, by simp [applyGet]⟩
    | error e =>
      have hg : _get_rates net now st0
          = { result := .error e, st := st0
              fetched := [st0.cfg.base_currency] } := by
        simp [_get_rates, hv, hf]
      rw [hg]
      refine ⟨?_, ?_⟩
      · rcases hentry with he | ⟨b, hb, hmem⟩
        · exact Or.inl he
        · exact Or.inr ⟨b, hb, by simpa [applyGet] using hmem⟩
      · intro tbl htbl
        simp only [applyGet, List.append_nil] at htbl
        obtain ⟨b2, hb2⟩ := hserved tbl htbl
        exact ⟨b2, by simpa [applyGet] using hb2⟩

/-- Every public operation preserves the trace invariant. -/
theorem stepOp_inv (net : Net) (s : TrSt) (op : Op) (h : TrInv s) :
    TrInv (stepOp net s op) := by
  cases op with
  | getRates now => exact applyGet_inv net now s s.st h.1 h.2
  | refresh now =>
    exact applyGet_inv net now s
      { s.st with cache := { s.st.cache with rates := [], last_fetch := none } }
      (Or.inl rfl) h.2
  | setBase c => exact ⟨Or.inl rfl, h.2⟩
  | setMargin m => exact ⟨h.1, h.2⟩
  | setTTL t => exact ⟨h.1, h.2⟩

/-- Any run from an invariant state preserves the trace invariant. -/
theorem runOps_inv (net : Net) (ops : List Op) :
    ∀ s : TrSt, TrInv s → TrInv (runOps net s ops) := by
  induction ops with
  | nil => intro s h; exact h
  | cons op rest ih =>
    intro s h
    exact ih (stepOp net s op) (stepOp_inv net s op h)

/-- Claim C4: `set_base` clears the cached table and timestamp, the next
lookup is forced to fetch for the new (upper-cased) base, and along any
subsequent operation sequence every table a lookup serves was recorded
by a fetch performed after the base change — so a table fetched for the
previously configured base is never served again. -/
theorem claim_C4 (net : Net) (cnew : String) (st : St) (now : ℚ)
    (ops : List Op) :
    ((set_base cnew st).cache.rates = [] ∧
     (set_base cnew st).cache.last_fetch = none) ∧
    ((_get_rates net now (set_base cnew st)).fetched = [strUpper cnew]) ∧
    (∀ tbl ∈ (runOps net ⟨set_base cnew st, [], []⟩ ops).served,
      ∃ b, (b, tbl) ∈ (runOps net ⟨set_base cnew st, [], []⟩ ops).fetchLog) := by
  refine ⟨⟨rfl, rfl⟩, ?_, ?_⟩
  · exact _get_rates_miss_fetched net now (set_base cnew st) rfl
  · exact (runOps_inv net ops ⟨set_base cnew st, [], []⟩
      ⟨Or.inl rfl, fun tbl h => absurd h (List.not_mem_nil tbl)⟩).2

/-- Witness for C4: after `set_base("eur")` a lookup fetches, and the
served table is exactly the one logged as fetched after the change. -/
theorem claim_C4_witness :
    ∃ b, (b, upperFields [("eur", Json.num (9/10)), ("gbp", Json.num (4/5))])
      ∈ (runOps netFixed ⟨set_base "eur" initSt, [], []⟩
          [Op.getRates 5]).fetchLog :=
  (claim_C4 netFixed "eur" initSt 5 [Op.getRates 5]).2.2
    (upperFields [("eur", Json.num (9/10)), ("gbp", Json.num (4/5))])
    (by exact List.mem_singleton.mpr rfl)

end Claims

end CurrencyConsts
